import Mathlib

/-!
Verification of the http-helper repository (`src/http_utils/fetcher/fetcher.py`).

The Python module defines:
- `CircuitBreakerRegistry.get_circuit_breaker`: a process-wide label → breaker table;
- `Fetcher.__init__`: merges a circuit configuration dict with defaults and resolves
  the breaker through the registry;
- `Fetcher.default_backoff_strategy`: `return 2 ** attempt`;
- `Fetcher.get` / `Fetcher.post`: the retry loop around `self.circuit_breaker.call`.

External collaborators (the HTTP transport wrapped by pybreaker's `call`, the clock,
the logger and the metrics sink) are modelled as oracles and as an event trace:
- the combined behaviour of `self.circuit_breaker.call(requests.get, url)` at the
  a-th attempt of one call is an oracle `bc : Nat → AttemptResult` (success response,
  `pybreaker.CircuitBreakerError`, or any other exception);
- the elapsed time `time.time() - start_time` observed at the a-th attempt is an
  oracle `el : Nat → Nat`;
- every logger / metrics / `time.sleep` call is recorded in order as an `Event`.
-/

/-- Error object raised by the transport (`except Exception as e`). The `id` field
models Python object identity so that re-raising "the same object" is value equality
here; `msg` models `str(e)`. -/
structure Err where
  id : Nat
  msg : String
  deriving DecidableEq

/-- Response returned by `requests.get` / `requests.post`; only `status_code` is read
by the fetcher. -/
structure Response where
  status_code : Int
  body : String
  deriving DecidableEq

/-- Result of one `self.circuit_breaker.call(...)` invocation: a response, a
`pybreaker.CircuitBreakerError`, or any other exception. -/
inductive AttemptResult where
  | ok (resp : Response)
  | circuitOpen (e : Err)
  | exn (e : Err)
  deriving DecidableEq

/-- One observable side effect of a `Fetcher.get` / `Fetcher.post` call, in program
order: the logger calls (with their message and `extra` fields), the metrics calls
(`track_retry`, `track_request`) and the `time.sleep` calls. -/
inductive Event where
  | infoDispatch (msg url lab : String)
  | infoStatus (msg url lab : String) (status : Int)
  | errorBreakerOpen (msg url lab errmsg : String)
  | errorAttemptFailed (msg url lab errmsg : String)
  | retryMetric (method : String)
  | requestMetric (method : String) (status : Int) (elapsed : Nat)
  | sleepFor (duration : Nat)
  deriving DecidableEq

/-- How one `Fetcher.get` / `Fetcher.post` call terminates: `return response`,
`raise e`, or falling off the loop (Python implicitly returns `None`). -/
inductive Outcome where
  | returned (resp : Response)
  | raised (e : Err)
  | noResult
  deriving DecidableEq

/-- `Fetcher.default_backoff_strategy`: `return 2**attempt`. -/
def defaultBackoffStrategy (attempt : Nat) : Nat := 2 ^ attempt

/-- A `pybreaker.CircuitBreaker` as configured by the registry. `id` is an allocation
stamp modelling object identity. `backoff` models the `breaker.backoff` attribute,
which the registry sets only when a non-None `backoff_strategy` is supplied
(`if backoff_strategy:`). -/
structure CircuitBreaker where
  id : Nat
  fail_max : Int
  reset_timeout : Int
  backoff : Option (Nat → Nat)

/-- State of the process-wide `CircuitBreakerRegistry._registry` dict, plus the
allocation counter giving each created breaker its identity. -/
structure RegistryState where
  registry : String → Option CircuitBreaker
  nextId : Nat

def emptyRegistry : RegistryState := ⟨fun _ => none, 0⟩

/-- Placeholder for the impossible `KeyError` on the final `cls._registry[label]`
lookup (the label is always present there). -/
def junkBreaker : CircuitBreaker := ⟨0, 0, 0, none⟩

/-- `CircuitBreakerRegistry.get_circuit_breaker`: if the label is absent, create a
breaker from the given config (attaching `backoff_strategy` when truthy) and store
it; then return `cls._registry[label]`. -/
def get_circuit_breaker (label : String) (fail_max reset_timeout : Int)
    (backoff_strategy : Option (Nat → Nat)) (st : RegistryState) :
    CircuitBreaker × RegistryState :=
  let st' :=
    match st.registry label with
    | none =>
        let breaker : CircuitBreaker :=
          ⟨st.nextId, fail_max, reset_timeout, backoff_strategy⟩
        ⟨fun k => if k = label then some breaker else st.registry k, st.nextId + 1⟩
    | some _ => st
  ((st'.registry label).getD junkBreaker, st')

/-- Value stored in a `circuit_config` dict: an int (`fail_max`, `reset_timeout`)
or a backoff function. -/
inductive CfgVal where
  | int (n : Int)
  | strat (f : Nat → Nat)

/-- A Python dict keyed by strings, as a finite partial map. -/
abbrev CfgDict := String → Option CfgVal

/-- Python `d.update(other)`: every key present in `other` overrides `d`. -/
def dictUpdate (d other : CfgDict) : CfgDict :=
  fun k =>
    match other k with
    | some v => some v
    | none => d k

/-- The `default_circuit_config` dict literal in `Fetcher.__init__`. -/
def defaultCircuitConfig : CfgDict :=
  fun k =>
    if k = "fail_max" then some (CfgVal.int 3)
    else if k = "reset_timeout" then some (CfgVal.int 60)
    else if k = "backoff_strategy" then some (CfgVal.strat defaultBackoffStrategy)
    else none

/-- `Fetcher.__init__`'s config merge: `if circuit_config:
default_circuit_config.update(circuit_config)` (a `None` config leaves the
defaults untouched; updating with an empty dict is the identity). -/
def buildCircuitConfig (circuit_config : Option CfgDict) : CfgDict :=
  match circuit_config with
  | some cc => dictUpdate defaultCircuitConfig cc
  | none => defaultCircuitConfig

/-- Read an int entry of the merged config dict (always present there). -/
def cfgInt (d : CfgDict) (k : String) : Int :=
  match d k with
  | some (CfgVal.int n) => n
  | _ => 0

/-- Read the backoff entry of the merged config dict. -/
def cfgStrat (d : CfgDict) (k : String) : Option (Nat → Nat) :=
  match d k with
  | some (CfgVal.strat f) => some f
  | _ => none

/-- The fields of a `Fetcher` instance that the retry loop reads (`self.logger` and
`self.metrics` are modelled by the event trace). -/
structure Fetcher where
  label : String
  maxRetries : Int
  circuit_breaker : CircuitBreaker

/-- `Fetcher.__init__`: merge `circuit_config` over the defaults and resolve the
shared breaker through the registry. -/
def mkFetcher (label : String) (circuit_config : Option CfgDict) (max_retries : Int)
    (st : RegistryState) : Fetcher × RegistryState :=
  let d := buildCircuitConfig circuit_config
  let p := get_circuit_breaker label (cfgInt d "fail_max") (cfgInt d "reset_timeout")
      (cfgStrat d "backoff_strategy") st
  (⟨label, max_retries, p.1⟩, p.2)

/-- Body of the `while attempt < self.max_retries` loop of `Fetcher.get`, indexed by
the remaining iteration budget `left = max_retries - attempt` (so the loop guard
`attempt < max_retries` is `left > 0`, and the final-attempt test
`attempt == self.max_retries` — taken after `attempt += 1` — is `l = 0` for the
inner budget `l`). `attempt` is the counter before the increment, exactly as in the
source. -/
def getGo (url lab : String) (bc : Nat → AttemptResult) (el : Nat → Nat) :
    Nat → Nat → List Event × Outcome
  | 0, _ => ([], Outcome.noResult)
  | l + 1, attempt =>
    let a := attempt + 1
    let retryEvts : List Event := if 1 < a then [Event.retryMetric "GET"] else []
    match bc a with
    | AttemptResult.ok resp =>
        (retryEvts ++
          [Event.infoStatus ("Response status: " ++ toString resp.status_code) url lab
              resp.status_code,
            Event.requestMetric "GET" resp.status_code (el a)],
          Outcome.returned resp)
    | AttemptResult.circuitOpen e =>
        (retryEvts ++
          [Event.errorBreakerOpen ("Circuit breaker open: " ++ e.msg) url lab e.msg,
            Event.requestMetric "GET" 500 0],
          Outcome.noResult)
    | AttemptResult.exn e =>
        let evts := retryEvts ++
          [Event.errorAttemptFailed ("Attempt " ++ toString a ++ " failed: " ++ e.msg)
              url lab e.msg]
        if l = 0 then (evts, Outcome.raised e)
        else
          let r := getGo url lab bc el l a
          (evts ++ Event.sleepFor (defaultBackoffStrategy a) :: r.1, r.2)

/-- `Fetcher.get`: dispatch log, then the retry loop starting at `attempt = 0`. -/
def Fetcher.get (f : Fetcher) (url : String) (bc : Nat → AttemptResult)
    (el : Nat → Nat) : List Event × Outcome :=
  let r := getGo url f.label bc el f.maxRetries.toNat 0
  (Event.infoDispatch ("Fetching URL: " ++ url) url f.label :: r.1, r.2)

/-- Body of the `while attempt < self.max_retries` loop of `Fetcher.post`, a separate
transcription of lines 119–158 (the transport call `requests.post(url, json=data)`
is folded into the `bc` oracle; `data` only flows into that call). Same budget
encoding as `getGo`. -/
def postGo (url lab : String) (bc : Nat → AttemptResult) (el : Nat → Nat) :
    Nat → Nat → List Event × Outcome
  | 0, _ => ([], Outcome.noResult)
  | l + 1, attempt =>
    let a := attempt + 1
    let retryEvts : List Event := if 1 < a then [Event.retryMetric "POST"] else []
    match bc a with
    | AttemptResult.ok resp =>
        (retryEvts ++
          [Event.infoStatus ("Response status: " ++ toString resp.status_code) url lab
              resp.status_code,
            Event.requestMetric "POST" resp.status_code (el a)],
          Outcome.returned resp)
    | AttemptResult.circuitOpen e =>
        (retryEvts ++
          [Event.errorBreakerOpen ("Circuit breaker open: " ++ e.msg) url lab e.msg,
            Event.requestMetric "POST" 500 0],
          Outcome.noResult)
    | AttemptResult.exn e =>
        let evts := retryEvts ++
          [Event.errorAttemptFailed ("Attempt " ++ toString a ++ " failed: " ++ e.msg)
              url lab e.msg]
        if l = 0 then (evts, Outcome.raised e)
        else
          let r := postGo url lab bc el l a
          (evts ++ Event.sleepFor (defaultBackoffStrategy a) :: r.1, r.2)

/-- `Fetcher.post`: dispatch log, then the retry loop starting at `attempt = 0`. -/
def Fetcher.post (f : Fetcher) (url : String) (data : String)
    (bc : Nat → AttemptResult) (el : Nat → Nat) : List Event × Outcome :=
  let r := postGo url f.label bc el f.maxRetries.toNat 0
  (Event.infoDispatch ("Posting to URL: " ++ url) url f.label :: r.1, r.2)

/-- Durations of the `time.sleep` calls of a trace, in order. -/
def sleepsOf : List Event → List Nat
  | [] => []
  | Event.sleepFor d :: l => d :: sleepsOf l
  | _ :: l => sleepsOf l

/-- Number of physical attempts recorded in a trace: each loop iteration emits
exactly one of `infoStatus`, `errorBreakerOpen`, `errorAttemptFailed` (one per
invocation of `circuit_breaker.call`). -/
def attemptsOf : List Event → Nat
  | [] => 0
  | Event.infoStatus _ _ _ _ :: l => attemptsOf l + 1
  | Event.errorBreakerOpen _ _ _ _ :: l => attemptsOf l + 1
  | Event.errorAttemptFailed _ _ _ _ :: l => attemptsOf l + 1
  | _ :: l => attemptsOf l

/-- Number of `track_retry` metric emissions in a trace. -/
def retryCountOf : List Event → Nat
  | [] => 0
  | Event.retryMetric _ :: l => retryCountOf l + 1
  | _ :: l => retryCountOf l

/-- The `track_request` metric emissions of a trace: (method, status_code, elapsed). -/
def requestMetricsOf : List Event → List (String × Int × Nat)
  | [] => []
  | Event.requestMetric m s t :: l => (m, s, t) :: requestMetricsOf l
  | _ :: l => requestMetricsOf l

/-- Status codes of the success info logs of a trace. -/
def statusLogsOf : List Event → List Int
  | [] => []
  | Event.infoStatus _ _ _ s :: l => s :: statusLogsOf l
  | _ :: l => statusLogsOf l

/-- Rejection reasons of the breaker-open error logs of a trace. -/
def breakerErrorLogsOf : List Event → List String
  | [] => []
  | Event.errorBreakerOpen _ _ _ m :: l => m :: breakerErrorLogsOf l
  | _ :: l => breakerErrorLogsOf l

/-- Program counter of one thread executing the body of
`CircuitBreakerRegistry.get_circuit_breaker` for a fixed label. The body is split at
its shared-state accesses: the membership check `label not in cls._registry`, the
`pybreaker.CircuitBreaker(...)` allocation (which fixes the new object's identity),
the store `cls._registry[label] = breaker`, and the final read
`return cls._registry[label]`. A thread whose check finds the label present skips
straight to the final read. -/
inductive RegPhase where
  | pcheck
  | pcreate
  | pinsert
  | pret
  | pdone
  deriving DecidableEq

/-- Local state of one thread running `get_circuit_breaker`. -/
structure RegThread where
  phase : RegPhase
  created : Option CircuitBreaker
  result : Option CircuitBreaker

/-- One atomic step of a thread running `get_circuit_breaker label fm rt bs` against
the shared registry. -/
def regThreadStep (label : String) (fm rt : Int) (bs : Option (Nat → Nat))
    (t : RegThread) (st : RegistryState) : RegThread × RegistryState :=
  match t.phase with
  | RegPhase.pcheck =>
      (if (st.registry label).isSome then { t with phase := RegPhase.pret }
        else { t with phase := RegPhase.pcreate }, st)
  | RegPhase.pcreate =>
      let b : CircuitBreaker := ⟨st.nextId, fm, rt, bs⟩
      ({ t with phase := RegPhase.pinsert, created := some b },
        { st with nextId := st.nextId + 1 })
  | RegPhase.pinsert =>
      (match t.created with
        | some b =>
            ({ t with phase := RegPhase.pret },
              { st with registry := fun k => if k = label then some b else st.registry k })
        | none => ({ t with phase := RegPhase.pret }, st))
  | RegPhase.pret =>
      ({ t with phase := RegPhase.pdone, result := st.registry label }, st)
  | RegPhase.pdone => (t, st)

/-- Two execution contexts concurrently inside `get_circuit_breaker`, plus the shared
registry. -/
structure ConcState where
  ta : RegThread
  tb : RegThread
  shared : RegistryState

/-- Run one scheduled step: `true` steps thread A, `false` steps thread B. -/
def concStep (label : String) (fm rt : Int) (bs : Option (Nat → Nat))
    (c : ConcState) (pickA : Bool) : ConcState :=
  if pickA then
    let p := regThreadStep label fm rt bs c.ta c.shared
    ⟨p.1, c.tb, p.2⟩
  else
    let p := regThreadStep label fm rt bs c.tb c.shared
    ⟨c.ta, p.1, p.2⟩

/-- Run a whole schedule of interleaved steps. -/
def runSched (label : String) (fm rt : Int) (bs : Option (Nat → Nat))
    (c : ConcState) : List Bool → ConcState
  | [] => c
  | p :: rest => runSched label fm rt bs (concStep label fm rt bs c p) rest

/-- Both threads about to enter `get_circuit_breaker`, registry empty. -/
def initialConc : ConcState :=
  ⟨⟨RegPhase.pcheck, none, none⟩, ⟨RegPhase.pcheck, none, none⟩, emptyRegistry⟩

/-- Interleaving in which both threads pass the membership check before either
stores: A checks, B checks, A creates/inserts/returns, then B creates/inserts/returns. -/
def raceSchedule : List Bool := [true, false, true, true, true, false, false, false]

/-- Serialized schedule: A runs to completion, then B. -/
def serialScheduleAB : List Bool := [true, true, true, true, false, false]

/-- Serialized schedule: B runs to completion, then A. -/
def serialScheduleBA : List Bool := [false, false, false, false, true, true]

def runReg (sched : List Bool) : ConcState :=
  runSched "svc" 3 60 none initialConc sched

/-- Retag only the metric events of a POST trace as GET, leaving every log event
unchanged (the translation the C9 claim allows). -/
def metricsToGet : Event → Event
  | Event.retryMetric _ => Event.retryMetric "GET"
  | Event.requestMetric _ s t => Event.requestMetric "GET" s t
  | e => e

/-- Retag a POST trace as the corresponding GET trace: metric method tags and the
dispatch log message (`"Posting to URL: "` becomes `"Fetching URL: "`). -/
def toGetEvent : Event → Event
  | Event.infoDispatch _ u l => Event.infoDispatch ("Fetching URL: " ++ u) u l
  | Event.retryMetric _ => Event.retryMetric "GET"
  | Event.requestMetric _ s t => Event.requestMetric "GET" s t
  | e => e

/-- A custom backoff strategy distinguishable from the default. -/
def customBackoff7 : Nat → Nat := fun _ => 7

/-- A `circuit_config` dict supplying only a custom `backoff_strategy`. -/
def ccCustom : CfgDict :=
  fun k => if k = "backoff_strategy" then some (CfgVal.strat customBackoff7) else none

/-- Fetcher built with the custom backoff strategy against a fresh registry. -/
def fetcherCustom : Fetcher := (mkFetcher "svc" (some ccCustom) 2 emptyRegistry).1

/-- Transport oracle that raises a transient error on every attempt. -/
def bcAllFail : Nat → AttemptResult := fun a => AttemptResult.exn ⟨a, "boom"⟩

theorem getGo_zero (url lab : String) (bc : Nat → AttemptResult) (el : Nat → Nat)
    (attempt : Nat) : getGo url lab bc el 0 attempt = ([], Outcome.noResult) := rfl

theorem getGo_succ (url lab : String) (bc : Nat → AttemptResult) (el : Nat → Nat)
    (l attempt : Nat) :
    getGo url lab bc el (l + 1) attempt =
      (let a := attempt + 1
       let retryEvts : List Event := if 1 < a then [Event.retryMetric "GET"] else []
       match bc a with
       | AttemptResult.ok resp =>
           (retryEvts ++
             [Event.infoStatus ("Response status: " ++ toString resp.status_code) url lab
                 resp.status_code,
               Event.requestMetric "GET" resp.status_code (el a)],
             Outcome.returned resp)
       | AttemptResult.circuitOpen e =>
           (retryEvts ++
             [Event.errorBreakerOpen ("Circuit breaker open: " ++ e.msg) url lab e.msg,
               Event.requestMetric "GET" 500 0],
             Outcome.noResult)
       | AttemptResult.exn e =>
           let evts := retryEvts ++
             [Event.errorAttemptFailed ("Attempt " ++ toString a ++ " failed: " ++ e.msg)
                 url lab e.msg]
           if l = 0 then (evts, Outcome.raised e)
           else
             let r := getGo url lab bc el l a
             (evts ++ Event.sleepFor (defaultBackoffStrategy a) :: r.1, r.2)) := rfl

theorem sleepsOf_append (l1 l2 : List Event) :
    sleepsOf (l1 ++ l2) = sleepsOf l1 ++ sleepsOf l2 := by
  induction l1 with
  | nil => rfl
  | cons e t ih => cases e <;> simp [sleepsOf, ih]

theorem attemptsOf_append (l1 l2 : List Event) :
    attemptsOf (l1 ++ l2) = attemptsOf l1 + attemptsOf l2 := by
  induction l1 with
  | nil => simp [attemptsOf]
  | cons e t ih => cases e <;> simp [attemptsOf, ih] <;> omega

theorem retryCountOf_append (l1 l2 : List Event) :
    retryCountOf (l1 ++ l2) = retryCountOf l1 + retryCountOf l2 := by
  induction l1 with
  | nil => simp [retryCountOf]
  | cons e t ih => cases e <;> simp [retryCountOf, ih] <;> omega

theorem requestMetricsOf_append (l1 l2 : List Event) :
    requestMetricsOf (l1 ++ l2) = requestMetricsOf l1 ++ requestMetricsOf l2 := by
  induction l1 with
  | nil => rfl
  | cons e t ih => cases e <;> simp [requestMetricsOf, ih]

theorem statusLogsOf_append (l1 l2 : List Event) :
    statusLogsOf (l1 ++ l2) = statusLogsOf l1 ++ statusLogsOf l2 := by
  induction l1 with
  | nil => rfl
  | cons e t ih => cases e <;> simp [statusLogsOf, ih]

theorem breakerErrorLogsOf_append (l1 l2 : List Event) :
    breakerErrorLogsOf (l1 ++ l2) = breakerErrorLogsOf l1 ++ breakerErrorLogsOf l2 := by
  induction l1 with
  | nil => rfl
  | cons e t ih => cases e <;> simp [breakerErrorLogsOf, ih]

theorem sleepsOf_retryIte (c : Prop) [Decidable c] (m : String) :
    sleepsOf (if c then [Event.retryMetric m] else []) = [] := by
  split <;> rfl

theorem attemptsOf_retryIte (c : Prop) [Decidable c] (m : String) :
    attemptsOf (if c then [Event.retryMetric m] else []) = 0 := by
  split <;> rfl

theorem requestMetricsOf_retryIte (c : Prop) [Decidable c] (m : String) :
    requestMetricsOf (if c then [Event.retryMetric m] else []) = [] := by
  split <;> rfl

theorem statusLogsOf_retryIte (c : Prop) [Decidable c] (m : String) :
    statusLogsOf (if c then [Event.retryMetric m] else []) = [] := by
  split <;> rfl

theorem breakerErrorLogsOf_retryIte (c : Prop) [Decidable c] (m : String) :
    breakerErrorLogsOf (if c then [Event.retryMetric m] else []) = [] := by
  split <;> rfl

theorem retryCountOf_retryIte (c : Prop) [Decidable c] (m : String) :
    retryCountOf (if c then [Event.retryMetric m] else []) = if c then 1 else 0 := by
  split <;> rfl

theorem range_map_shift (g : Nat → Nat) (n k : Nat) :
    (List.range (n + 1)).map (fun i => g (k + i)) =
      g k :: (List.range n).map (fun i => g (k + 1 + i)) := by
  rw [List.range_succ_eq_map, List.map_cons, List.map_map]
  have h1 : ((fun i => g (k + i)) ∘ Nat.succ) = fun i => g (k + 1 + i) := by
    funext i
    simp only [Function.comp]
    congr 1
    omega
  rw [h1]
  simp

theorem getGo_allFail (url lab : String) (bc : Nat → AttemptResult) (el : Nat → Nat)
    (errF : Nat → Err) (hbc : ∀ a, 1 ≤ a → bc a = AttemptResult.exn (errF a)) :
    ∀ j attempt,
      attemptsOf (getGo url lab bc el (j + 1) attempt).1 = j + 1 ∧
      sleepsOf (getGo url lab bc el (j + 1) attempt).1 =
        (List.range j).map (fun i => defaultBackoffStrategy (attempt + 1 + i)) ∧
      (getGo url lab bc el (j + 1) attempt).2 = Outcome.raised (errF (attempt + j + 1)) := by
  intro j
  induction j with
  | zero =>
      intro attempt
      rw [getGo_succ]
      simp only [hbc (attempt + 1) (by omega)]
      simp [attemptsOf_append, sleepsOf_append, attemptsOf_retryIte, sleepsOf_retryIte,
        attemptsOf, sleepsOf]
  | succ j ih =>
      intro attempt
      obtain ⟨ha, hs, ho⟩ := ih (attempt + 1)
      rw [getGo_succ]
      simp only [hbc (attempt + 1) (by omega), if_neg (Nat.succ_ne_zero j)]
      refine ⟨?_, ?_, ?_⟩
      · simp [attemptsOf_append, attemptsOf_retryIte, attemptsOf, ha]
      · rw [range_map_shift]
        simp [sleepsOf_append, sleepsOf_retryIte, sleepsOf, hs]
      · have harith : attempt + 1 + j + 1 = attempt + (j + 1) + 1 := by omega
        rw [harith] at ho
        simpa using ho

/-- C1: for max_retries = N ≥ 1, if the transport raises a transient error on every
attempt, one `Fetcher.get` call performs exactly N attempts, sleeps exactly N−1
times with durations `default_backoff_strategy 1 .. N−1`, and re-raises the last
attempt's error object unchanged (for N = 1: one attempt, no sleep, immediate
propagation). -/
theorem c1_retry_exhaustion (f : Fetcher) (url : String) (bc : Nat → AttemptResult)
    (el : Nat → Nat) (errF : Nat → Err) (N : Nat) (hN : 1 ≤ N)
    (hmr : f.maxRetries = (N : Int))
    (hbc : ∀ a, 1 ≤ a → bc a = AttemptResult.exn (errF a)) :
    attemptsOf (f.get url bc el).1 = N ∧
    sleepsOf (f.get url bc el).1 =
      (List.range (N - 1)).map (fun i => defaultBackoffStrategy (i + 1)) ∧
    (f.get url bc el).2 = Outcome.raised (errF N) := by
  obtain ⟨j, rfl⟩ : ∃ j, N = j + 1 := ⟨N - 1, by omega⟩
  have hm : f.maxRetries.toNat = j + 1 := by rw [hmr]; rfl
  obtain ⟨ha, hs, ho⟩ := getGo_allFail url f.label bc el errF hbc j 0
  have hfun : (fun i => defaultBackoffStrategy (0 + 1 + i)) =
      fun i => defaultBackoffStrategy (i + 1) := by
    funext i
    congr 1
    omega
  refine ⟨?_, ?_, ?_⟩
  · simpa [Fetcher.get, hm, attemptsOf] using ha
  · rw [hfun] at hs
    simpa [Fetcher.get, hm, sleepsOf] using hs
  · simpa [Fetcher.get, hm] using ho

theorem c1_retry_exhaustion_witness :
    (1 : Nat) ≤ 3 ∧
    (Fetcher.maxRetries ⟨"svc", 3, junkBreaker⟩ = ((3 : Nat) : Int)) ∧
    (attemptsOf ((Fetcher.get ⟨"svc", 3, junkBreaker⟩ "u" bcAllFail (fun _ => 0)).1) = 3 ∧
      sleepsOf ((Fetcher.get ⟨"svc", 3, junkBreaker⟩ "u" bcAllFail (fun _ => 0)).1) =
        (List.range 2).map (fun i => defaultBackoffStrategy (i + 1)) ∧
      (Fetcher.get ⟨"svc", 3, junkBreaker⟩ "u" bcAllFail (fun _ => 0)).2 =
        Outcome.raised ⟨3, "boom"⟩) :=
  ⟨by omega, rfl,
    c1_retry_exhaustion ⟨"svc", 3, junkBreaker⟩ "u" bcAllFail (fun _ => 0)
      (fun a => ⟨a, "boom"⟩) 3 (by omega) rfl (fun a _ => rfl)⟩

theorem getGo_okAt (url lab : String) (bc : Nat → AttemptResult) (el : Nat → Nat)
    (errF : Nat → Err) (resp : Response) :
    ∀ j left attempt, j + 1 ≤ left →
      (∀ a, attempt < a → a ≤ attempt + j → bc a = AttemptResult.exn (errF a)) →
      bc (attempt + j + 1) = AttemptResult.ok resp →
      attemptsOf (getGo url lab bc el left attempt).1 = j + 1 ∧
      sleepsOf (getGo url lab bc el left attempt).1 =
        (List.range j).map (fun i => defaultBackoffStrategy (attempt + 1 + i)) ∧
      statusLogsOf (getGo url lab bc el left attempt).1 = [resp.status_code] ∧
      requestMetricsOf (getGo url lab bc el left attempt).1 =
        [("GET", resp.status_code, el (attempt + j + 1))] ∧
      retryCountOf (getGo url lab bc el left attempt).1 =
        (if attempt = 0 then j else j + 1) ∧
      (getGo url lab bc el left attempt).2 = Outcome.returned resp := by
  intro j
  induction j with
  | zero =>
      intro left attempt hleft hfail hok
      obtain ⟨l, rfl⟩ : ∃ l, left = l + 1 := ⟨left - 1, by omega⟩
      have hok' : bc (attempt + 1) = AttemptResult.ok resp := by
        have e : attempt + 0 + 1 = attempt + 1 := by omega
        rwa [e] at hok
      rw [getGo_succ]
      simp only [hok']
      refine ⟨?_, ?_, ?_, ?_, ?_, ?_⟩
      · simp [attemptsOf_append, attemptsOf_retryIte, attemptsOf]
      · simp [sleepsOf_append, sleepsOf_retryIte, sleepsOf]
      · simp [statusLogsOf_append, statusLogsOf_retryIte, statusLogsOf]
      · simp [requestMetricsOf_append, requestMetricsOf_retryIte, requestMetricsOf]
      · by_cases hA : attempt = 0
        · subst hA
          rw [if_pos rfl]
          simp [retryCountOf_append, retryCountOf_retryIte, retryCountOf]
        · rw [if_neg hA]
          have h1 : 1 < attempt + 1 := by omega
          simp [retryCountOf_append, retryCountOf_retryIte, retryCountOf, h1]
      · trivial
  | succ j ih =>
      intro left attempt hleft hfail hok
      obtain ⟨l, rfl⟩ : ∃ l, left = l + 1 := ⟨left - 1, by omega⟩
      have hstep : bc (attempt + 1) = AttemptResult.exn (errF (attempt + 1)) :=
        hfail (attempt + 1) (by omega) (by omega)
      have hl0 : ¬(l = 0) := by omega
      have hok' : bc (attempt + 1 + j + 1) = AttemptResult.ok resp := by
        have e : attempt + (j + 1) + 1 = attempt + 1 + j + 1 := by omega
        rwa [e] at hok
      obtain ⟨ha, hs, hst, hrm, hrc, ho⟩ := ih l (attempt + 1) (by omega)
        (fun a h1 h2 => hfail a (by omega) (by omega)) hok'
      rw [getGo_succ]
      simp only [hstep, if_neg hl0]
      refine ⟨?_, ?_, ?_, ?_, ?_, ?_⟩
      · simp [attemptsOf_append, attemptsOf_retryIte, attemptsOf, ha]
      · rw [range_map_shift]
        simp [sleepsOf_append, sleepsOf_retryIte, sleepsOf, hs]
      · simp [statusLogsOf_append, statusLogsOf_retryIte, statusLogsOf, hst]
      · have e : attempt + 1 + j + 1 = attempt + (j + 1) + 1 := by omega
        rw [e] at hrm
        simp [requestMetricsOf_append, requestMetricsOf_retryIte, requestMetricsOf, hrm]
      · have hrc2 : retryCountOf (getGo url lab bc el l (attempt + 1)).1 = j + 1 := by
          rw [hrc, if_neg (Nat.succ_ne_zero attempt)]
        by_cases hA : attempt = 0
        · subst hA
          rw [if_pos rfl]
          simp [retryCountOf_append, retryCountOf_retryIte, retryCountOf, hrc2]
        · rw [if_neg hA]
          have h1 : 1 < attempt + 1 := by omega
          simp [retryCountOf_append, retryCountOf_retryIte, retryCountOf, hrc2, h1]
      · simpa using ho

theorem getGo_openAt (url lab : String) (bc : Nat → AttemptResult) (el : Nat → Nat)
    (errF : Nat → Err) (e : Err) :
    ∀ j left attempt, j + 1 ≤ left →
      (∀ a, attempt < a → a ≤ attempt + j → bc a = AttemptResult.exn (errF a)) →
      bc (attempt + j + 1) = AttemptResult.circuitOpen e →
      attemptsOf (getGo url lab bc el left attempt).1 = j + 1 ∧
      sleepsOf (getGo url lab bc el left attempt).1 =
        (List.range j).map (fun i => defaultBackoffStrategy (attempt + 1 + i)) ∧
      breakerErrorLogsOf (getGo url lab bc el left attempt).1 = [e.msg] ∧
      requestMetricsOf (getGo url lab bc el left attempt).1 = [("GET", 500, 0)] ∧
      (getGo url lab bc el left attempt).2 = Outcome.noResult := by
  intro j
  induction j with
  | zero =>
      intro left attempt hleft hfail hopen
      obtain ⟨l, rfl⟩ : ∃ l, left = l + 1 := ⟨left - 1, by omega⟩
      have hopen' : bc (attempt + 1) = AttemptResult.circuitOpen e := by
        have harith : attempt + 0 + 1 = attempt + 1 := by omega
        rwa [harith] at hopen
      rw [getGo_succ]
      simp only [hopen']
      refine ⟨?_, ?_, ?_, ?_, ?_⟩
      · simp [attemptsOf_append, attemptsOf_retryIte, attemptsOf]
      · simp [sleepsOf_append, sleepsOf_retryIte, sleepsOf]
      · simp [breakerErrorLogsOf_append, breakerErrorLogsOf_retryIte, breakerErrorLogsOf]
      · simp [requestMetricsOf_append, requestMetricsOf_retryIte, requestMetricsOf]
      · trivial
  | succ j ih =>
      intro left attempt hleft hfail hopen
      obtain ⟨l, rfl⟩ : ∃ l, left = l + 1 := ⟨left - 1, by omega⟩
      have hstep : bc (attempt + 1) = AttemptResult.exn (errF (attempt + 1)) :=
        hfail (attempt + 1) (by omega) (by omega)
      have hl0 : ¬(l = 0) := by omega
      have hopen' : bc (attempt + 1 + j + 1) = AttemptResult.circuitOpen e := by
        have harith : attempt + (j + 1) + 1 = attempt + 1 + j + 1 := by omega
        rwa [harith] at hopen
      obtain ⟨ha, hs, hbl, hrm, ho⟩ := ih l (attempt + 1) (by omega)
        (fun a h1 h2 => hfail a (by omega) (by omega)) hopen'
      rw [getGo_succ]
      simp only [hstep, if_neg hl0]
      refine ⟨?_, ?_, ?_, ?_, ?_⟩
      · simp [attemptsOf_append, attemptsOf_retryIte, attemptsOf, ha]
      · rw [range_map_shift]
        simp [sleepsOf_append, sleepsOf_retryIte, sleepsOf, hs]
      · simp [breakerErrorLogsOf_append, breakerErrorLogsOf_retryIte, breakerErrorLogsOf, hbl]
      · simp [requestMetricsOf_append, requestMetricsOf_retryIte, requestMetricsOf, hrm]
      · simpa using ho

/-- C3: if the transport first succeeds on attempt K (1 ≤ K ≤ max_retries),
`Fetcher.get` performs exactly K attempts and K−1 backoff sleeps, returns that
response regardless of its status code, emits one success info log and one request
metric (method, status_code, elapsed), and emits exactly K−1 retry metrics (one per
attempt after the first, none for attempt 1). -/
theorem c3_success_at_k (f : Fetcher) (url : String) (bc : Nat → AttemptResult)
    (el : Nat → Nat) (errF : Nat → Err) (resp : Response) (N K : Nat)
    (hK1 : 1 ≤ K) (hKN : K ≤ N) (hmr : f.maxRetries = (N : Int))
    (hfail : ∀ a, 1 ≤ a → a < K → bc a = AttemptResult.exn (errF a))
    (hok : bc K = AttemptResult.ok resp) :
    attemptsOf (f.get url bc el).1 = K ∧
    sleepsOf (f.get url bc el).1 =
      (List.range (K - 1)).map (fun i => defaultBackoffStrategy (i + 1)) ∧
    statusLogsOf (f.get url bc el).1 = [resp.status_code] ∧
    requestMetricsOf (f.get url bc el).1 = [("GET", resp.status_code, el K)] ∧
    retryCountOf (f.get url bc el).1 = K - 1 ∧
    (f.get url bc el).2 = Outcome.returned resp := by
  obtain ⟨j, rfl⟩ : ∃ j, K = j + 1 := ⟨K - 1, by omega⟩
  have hm : f.maxRetries.toNat = N := by rw [hmr]; rfl
  have hok' : bc (0 + j + 1) = AttemptResult.ok resp := by
    have e : 0 + j + 1 = j + 1 := by omega
    rw [e]
    exact hok
  obtain ⟨ha, hs, hst, hrm, hrc, ho⟩ := getGo_okAt url f.label bc el errF resp j N 0
    (by omega) (fun a h1 h2 => hfail a (by omega) (by omega)) hok'
  have hfun : (fun i => defaultBackoffStrategy (0 + 1 + i)) =
      fun i => defaultBackoffStrategy (i + 1) := by
    funext i
    congr 1
    omega
  rw [hfun] at hs
  have e2 : 0 + j + 1 = j + 1 := by omega
  rw [e2] at hrm
  refine ⟨?_, ?_, ?_, ?_, ?_, ?_⟩
  · simpa [Fetcher.get, hm, attemptsOf] using ha
  · simpa [Fetcher.get, hm, sleepsOf] using hs
  · simpa [Fetcher.get, hm, statusLogsOf] using hst
  · simpa [Fetcher.get, hm, requestMetricsOf] using hrm
  · simpa [Fetcher.get, hm, retryCountOf] using hrc
  · simpa [Fetcher.get, hm] using ho

theorem c3_success_at_k_witness :
    (1 : Nat) ≤ 2 ∧ (2 : Nat) ≤ 3 ∧
    (attemptsOf ((Fetcher.get ⟨"svc", 3, junkBreaker⟩ "u"
        (fun a => match a with
          | 1 => AttemptResult.exn ⟨1, "boom"⟩
          | _ => AttemptResult.ok ⟨500, "b"⟩) (fun _ => 9)).1) = 2 ∧
      sleepsOf ((Fetcher.get ⟨"svc", 3, junkBreaker⟩ "u"
        (fun a => match a with
          | 1 => AttemptResult.exn ⟨1, "boom"⟩
          | _ => AttemptResult.ok ⟨500, "b"⟩) (fun _ => 9)).1) =
        (List.range 1).map (fun i => defaultBackoffStrategy (i + 1)) ∧
      statusLogsOf ((Fetcher.get ⟨"svc", 3, junkBreaker⟩ "u"
        (fun a => match a with
          | 1 => AttemptResult.exn ⟨1, "boom"⟩
          | _ => AttemptResult.ok ⟨500, "b"⟩) (fun _ => 9)).1) = [500] ∧
      requestMetricsOf ((Fetcher.get ⟨"svc", 3, junkBreaker⟩ "u"
        (fun a => match a with
          | 1 => AttemptResult.exn ⟨1, "boom"⟩
          | _ => AttemptResult.ok ⟨500, "b"⟩) (fun _ => 9)).1) = [("GET", 500, 9)] ∧
      retryCountOf ((Fetcher.get ⟨"svc", 3, junkBreaker⟩ "u"
        (fun a => match a with
          | 1 => AttemptResult.exn ⟨1, "boom"⟩
          | _ => AttemptResult.ok ⟨500, "b"⟩) (fun _ => 9)).1) = 1 ∧
      (Fetcher.get ⟨"svc", 3, junkBreaker⟩ "u"
        (fun a => match a with
          | 1 => AttemptResult.exn ⟨1, "boom"⟩
          | _ => AttemptResult.ok ⟨500, "b"⟩) (fun _ => 9)).2 =
        Outcome.returned ⟨500, "b"⟩) :=
  ⟨by omega, by omega,
    c3_success_at_k ⟨"svc", 3, junkBreaker⟩ "u"
      (fun a => match a with
        | 1 => AttemptResult.exn ⟨1, "boom"⟩
        | _ => AttemptResult.ok ⟨500, "b"⟩) (fun _ => 9)
      (fun a => ⟨a, "boom"⟩) ⟨500, "b"⟩ 3 2 (by omega) (by omega) rfl
      (fun a h1 h2 => by
        have ha1 : a = 1 := by omega
        subst ha1
        rfl)
      rfl⟩

/-- C2: whenever the breaker rejects attempt k with a breaker-open error (after k−1
transient failures, including the k = 1 case), `Fetcher.get` performs no attempt and
no backoff sleep beyond attempt k, emits exactly one breaker-open error log carrying
the rejection reason, emits exactly one request metric (method, synthetic 500,
elapsed 0), and terminates without raising and without a response value. -/
theorem c2_breaker_open (f : Fetcher) (url : String) (bc : Nat → AttemptResult)
    (el : Nat → Nat) (errF : Nat → Err) (e : Err) (N k : Nat)
    (hk1 : 1 ≤ k) (hkN : k ≤ N) (hmr : f.maxRetries = (N : Int))
    (hfail : ∀ a, 1 ≤ a → a < k → bc a = AttemptResult.exn (errF a))
    (hopen : bc k = AttemptResult.circuitOpen e) :
    attemptsOf (f.get url bc el).1 = k ∧
    sleepsOf (f.get url bc el).1 =
      (List.range (k - 1)).map (fun i => defaultBackoffStrategy (i + 1)) ∧
    breakerErrorLogsOf (f.get url bc el).1 = [e.msg] ∧
    requestMetricsOf (f.get url bc el).1 = [("GET", 500, 0)] ∧
    (f.get url bc el).2 = Outcome.noResult := by
  obtain ⟨j, rfl⟩ : ∃ j, k = j + 1 := ⟨k - 1, by omega⟩
  have hm : f.maxRetries.toNat = N := by rw [hmr]; rfl
  have hopen' : bc (0 + j + 1) = AttemptResult.circuitOpen e := by
    have harith : 0 + j + 1 = j + 1 := by omega
    rw [harith]
    exact hopen
  obtain ⟨ha, hs, hbl, hrm, ho⟩ := getGo_openAt url f.label bc el errF e j N 0
    (by omega) (fun a h1 h2 => hfail a (by omega) (by omega)) hopen'
  have hfun : (fun i => defaultBackoffStrategy (0 + 1 + i)) =
      fun i => defaultBackoffStrategy (i + 1) := by
    funext i
    congr 1
    omega
  rw [hfun] at hs
  refine ⟨?_, ?_, ?_, ?_, ?_⟩
  · simpa [Fetcher.get, hm, attemptsOf] using ha
  · simpa [Fetcher.get, hm, sleepsOf] using hs
  · simpa [Fetcher.get, hm, breakerErrorLogsOf] using hbl
  · simpa [Fetcher.get, hm, requestMetricsOf] using hrm
  · simpa [Fetcher.get, hm] using ho

theorem c2_breaker_open_witness :
    (1 : Nat) ≤ 1 ∧ (1 : Nat) ≤ 2 ∧
    (attemptsOf ((Fetcher.get ⟨"svc", 2, junkBreaker⟩ "u"
        (fun _ => AttemptResult.circuitOpen ⟨7, "open"⟩) (fun _ => 4)).1) = 1 ∧
      sleepsOf ((Fetcher.get ⟨"svc", 2, junkBreaker⟩ "u"
        (fun _ => AttemptResult.circuitOpen ⟨7, "open"⟩) (fun _ => 4)).1) =
        (List.range 0).map (fun i => defaultBackoffStrategy (i + 1)) ∧
      breakerErrorLogsOf ((Fetcher.get ⟨"svc", 2, junkBreaker⟩ "u"
        (fun _ => AttemptResult.circuitOpen ⟨7, "open"⟩) (fun _ => 4)).1) = ["open"] ∧
      requestMetricsOf ((Fetcher.get ⟨"svc", 2, junkBreaker⟩ "u"
        (fun _ => AttemptResult.circuitOpen ⟨7, "open"⟩) (fun _ => 4)).1) =
        [("GET", 500, 0)] ∧
      (Fetcher.get ⟨"svc", 2, junkBreaker⟩ "u"
        (fun _ => AttemptResult.circuitOpen ⟨7, "open"⟩) (fun _ => 4)).2 =
        Outcome.noResult) :=
  ⟨by omega, by omega,
    c2_breaker_open ⟨"svc", 2, junkBreaker⟩ "u"
      (fun _ => AttemptResult.circuitOpen ⟨7, "open"⟩) (fun _ => 4)
      (fun a => ⟨a, "x"⟩) ⟨7, "open"⟩ 2 1 (by omega) (by omega) rfl
      (fun a h1 h2 => by omega) rfl⟩

/-- C8: for max_retries ≤ 0 the `while attempt < self.max_retries` guard fails at
once: `Fetcher.get` and `Fetcher.post` emit only the initial dispatch info log — no
attempt, no sleep, no metric, no error log — and return no response value without
raising. -/
theorem c8_nonpositive_retries (f : Fetcher) (url data : String)
    (bc : Nat → AttemptResult) (el : Nat → Nat) (h : f.maxRetries ≤ 0) :
    f.get url bc el =
      ([Event.infoDispatch ("Fetching URL: " ++ url) url f.label], Outcome.noResult) ∧
    f.post url data bc el =
      ([Event.infoDispatch ("Posting to URL: " ++ url) url f.label], Outcome.noResult) := by
  have hm : f.maxRetries.toNat = 0 := Int.toNat_of_nonpos h
  constructor
  · simp [Fetcher.get, hm, getGo]
  · simp [Fetcher.post, hm, postGo]

theorem c8_nonpositive_retries_witness :
    Fetcher.maxRetries ⟨"svc", -1, junkBreaker⟩ ≤ 0 ∧
    (Fetcher.get ⟨"svc", -1, junkBreaker⟩ "u" bcAllFail (fun _ => 0) =
        ([Event.infoDispatch ("Fetching URL: " ++ "u") "u" "svc"], Outcome.noResult) ∧
      Fetcher.post ⟨"svc", -1, junkBreaker⟩ "u" "d" bcAllFail (fun _ => 0) =
        ([Event.infoDispatch ("Posting to URL: " ++ "u") "u" "svc"], Outcome.noResult)) :=
  ⟨by decide,
    c8_nonpositive_retries ⟨"svc", -1, junkBreaker⟩ "u" "d" bcAllFail (fun _ => 0)
      (by decide)⟩

/-- C6: the default backoff policy is the pure function mapping every positive
attempt number a to 2 ^ a — no jitter, no cap. -/
theorem c6_default_backoff_pow (a : Nat) (h : 1 ≤ a) :
    defaultBackoffStrategy a = 2 ^ a := rfl

theorem c6_default_backoff_pow_witness :
    (1 : Nat) ≤ 3 ∧ defaultBackoffStrategy 3 = 2 ^ 3 :=
  ⟨by omega, c6_default_backoff_pow 3 (by omega)⟩

/-- C4: the registry is idempotent per label — a second
`get_circuit_breaker` call for the same label returns the exact breaker the first
call returned (object identity included) and leaves the registry unchanged,
silently ignoring any different fail_max / reset_timeout / backoff_strategy
arguments (first registration wins). -/
theorem c4_registry_idempotent (st : RegistryState) (label : String)
    (fm rt fm' rt' : Int) (bs bs' : Option (Nat → Nat)) :
    (get_circuit_breaker label fm' rt' bs'
        (get_circuit_breaker label fm rt bs st).2).1 =
      (get_circuit_breaker label fm rt bs st).1 ∧
    (get_circuit_breaker label fm' rt' bs'
        (get_circuit_breaker label fm rt bs st).2).2 =
      (get_circuit_breaker label fm rt bs st).2 := by
  cases h : st.registry label with
  | some b => simp [get_circuit_breaker, h]
  | none => simp [get_circuit_breaker, h]

/-- C10: for a fresh label, the breaker configuration `Fetcher.__init__` passes to
the registry fills every key missing from `circuit_config` (or all keys, when
`circuit_config` is absent) with the defaults fail_max = 3, reset_timeout = 60 and
backoff_strategy = default_backoff_strategy, while every key present in
`circuit_config` overrides the corresponding default. -/
theorem c10_config_defaults (cc : CfgDict) (st : RegistryState) (label : String)
    (mr : Int) (hfresh : st.registry label = none) :
    ((mkFetcher label none mr st).1.circuit_breaker.fail_max = 3 ∧
      (mkFetcher label none mr st).1.circuit_breaker.reset_timeout = 60 ∧
      (mkFetcher label none mr st).1.circuit_breaker.backoff =
        some defaultBackoffStrategy) ∧
    (cc "fail_max" = none →
      (mkFetcher label (some cc) mr st).1.circuit_breaker.fail_max = 3) ∧
    (∀ n, cc "fail_max" = some (CfgVal.int n) →
      (mkFetcher label (some cc) mr st).1.circuit_breaker.fail_max = n) ∧
    (cc "reset_timeout" = none →
      (mkFetcher label (some cc) mr st).1.circuit_breaker.reset_timeout = 60) ∧
    (∀ n, cc "reset_timeout" = some (CfgVal.int n) →
      (mkFetcher label (some cc) mr st).1.circuit_breaker.reset_timeout = n) ∧
    (cc "backoff_strategy" = none →
      (mkFetcher label (some cc) mr st).1.circuit_breaker.backoff =
        some defaultBackoffStrategy) ∧
    (∀ g, cc "backoff_strategy" = some (CfgVal.strat g) →
      (mkFetcher label (some cc) mr st).1.circuit_breaker.backoff = some g) := by
  refine ⟨⟨?_, ?_, ?_⟩, ?_, ?_, ?_, ?_, ?_, ?_⟩
  · simp [mkFetcher, get_circuit_breaker, hfresh, buildCircuitConfig,
      defaultCircuitConfig, cfgInt]
  · simp [mkFetcher, get_circuit_breaker, hfresh, buildCircuitConfig,
      defaultCircuitConfig, cfgInt]
  · simp [mkFetcher, get_circuit_breaker, hfresh, buildCircuitConfig,
      defaultCircuitConfig, cfgStrat]
  · intro h
    simp [mkFetcher, get_circuit_breaker, hfresh, buildCircuitConfig, dictUpdate,
      defaultCircuitConfig, cfgInt, h]
  · intro n h
    simp [mkFetcher, get_circuit_breaker, hfresh, buildCircuitConfig, dictUpdate,
      defaultCircuitConfig, cfgInt, h]
  · intro h
    simp [mkFetcher, get_circuit_breaker, hfresh, buildCircuitConfig, dictUpdate,
      defaultCircuitConfig, cfgInt, h]
  · intro n h
    simp [mkFetcher, get_circuit_breaker, hfresh, buildCircuitConfig, dictUpdate,
      defaultCircuitConfig, cfgInt, h]
  · intro h
    simp [mkFetcher, get_circuit_breaker, hfresh, buildCircuitConfig, dictUpdate,
      defaultCircuitConfig, cfgStrat, h]
  · intro g h
    simp [mkFetcher, get_circuit_breaker, hfresh, buildCircuitConfig, dictUpdate,
      defaultCircuitConfig, cfgStrat, h]

theorem c10_config_defaults_witness :
    emptyRegistry.registry "svc" = none ∧
    ccCustom "fail_max" = none ∧
    ccCustom "backoff_strategy" = some (CfgVal.strat customBackoff7) ∧
    ((mkFetcher "svc" (some ccCustom) 5 emptyRegistry).1.circuit_breaker.fail_max = 3 ∧
      (mkFetcher "svc" (some ccCustom) 5 emptyRegistry).1.circuit_breaker.backoff =
        some customBackoff7 ∧
      (mkFetcher "svc" none 5 emptyRegistry).1.circuit_breaker.backoff =
        some defaultBackoffStrategy) :=
  ⟨rfl, rfl, rfl,
    (c10_config_defaults ccCustom emptyRegistry "svc" 5 rfl).2.1 rfl,
    (c10_config_defaults ccCustom emptyRegistry "svc" 5 rfl).2.2.2.2.2.2
      customBackoff7 rfl,
    (c10_config_defaults ccCustom emptyRegistry "svc" 5 rfl).1.2.2⟩

/-- C5 counterexample: a Fetcher built with the custom strategy `customBackoff7`
(constant 7) has that function attached to its breaker, yet the first retry sleep of
its loop lasts `default_backoff_strategy 1 = 2`, not `customBackoff7 1 = 7` — the
loop's sleep function is not the custom function attached to the breaker. -/
theorem c5_cx_loop_ignores_custom_backoff :
    fetcherCustom.circuit_breaker.backoff = some customBackoff7 ∧
    sleepsOf (fetcherCustom.get "u" bcAllFail (fun _ => 0)).1 =
      [defaultBackoffStrategy 1] ∧
    defaultBackoffStrategy 1 = 2 ∧
    customBackoff7 1 = 7 ∧
    sleepsOf (fetcherCustom.get "u" bcAllFail (fun _ => 0)).1 ≠ [customBackoff7 1] :=
  ⟨rfl, rfl, rfl, rfl, by decide⟩

/-- C5 amended: constructing a Fetcher with a custom backoff_strategy in
circuit_config attaches that function to the (freshly created) breaker, but the
retry loop always computes its sleep durations with the instance's
default_backoff_strategy (2 ^ attempt), so loop-level and breaker-level backoff
coincide only when the configured strategy is the default one. -/
theorem c5_loop_uses_default_backoff (g : Nat → Nat) (cc : CfgDict)
    (st : RegistryState) (label url : String) (mr : Int) (bc : Nat → AttemptResult)
    (el : Nat → Nat) (errF : Nat → Err) (N : Nat)
    (hfresh : st.registry label = none)
    (hcc : cc "backoff_strategy" = some (CfgVal.strat g))
    (hmr : mr = (N : Int)) (hN : 1 ≤ N)
    (hbc : ∀ a, 1 ≤ a → bc a = AttemptResult.exn (errF a)) :
    (mkFetcher label (some cc) mr st).1.circuit_breaker.backoff = some g ∧
    sleepsOf (((mkFetcher label (some cc) mr st).1).get url bc el).1 =
      (List.range (N - 1)).map (fun i => defaultBackoffStrategy (i + 1)) := by
  constructor
  · simp [mkFetcher, get_circuit_breaker, hfresh, buildCircuitConfig, dictUpdate,
      defaultCircuitConfig, cfgStrat, hcc]
  · obtain ⟨j, rfl⟩ : ∃ j, N = j + 1 := ⟨N - 1, by omega⟩
    have hm : ((mkFetcher label (some cc) mr st).1).maxRetries.toNat = j + 1 := by
      simp [mkFetcher, hmr]
    obtain ⟨ha, hs, ho⟩ :=
      getGo_allFail url ((mkFetcher label (some cc) mr st).1).label bc el errF hbc j 0
    have hfun : (fun i => defaultBackoffStrategy (0 + 1 + i)) =
        fun i => defaultBackoffStrategy (i + 1) := by
      funext i
      congr 1
      omega
    rw [hfun] at hs
    simpa [Fetcher.get, hm, sleepsOf] using hs

theorem c5_loop_uses_default_backoff_witness :
    emptyRegistry.registry "svc" = none ∧
    ccCustom "backoff_strategy" = some (CfgVal.strat customBackoff7) ∧
    (2 : Int) = ((2 : Nat) : Int) ∧
    (1 : Nat) ≤ 2 ∧
    ((mkFetcher "svc" (some ccCustom) 2 emptyRegistry).1.circuit_breaker.backoff =
        some customBackoff7 ∧
      sleepsOf (((mkFetcher "svc" (some ccCustom) 2 emptyRegistry).1).get "u"
          bcAllFail (fun _ => 0)).1 =
        (List.range 1).map (fun i => defaultBackoffStrategy (i + 1))) :=
  ⟨rfl, rfl, rfl, by omega,
    c5_loop_uses_default_backoff customBackoff7 ccCustom emptyRegistry "svc" "u" 2
      bcAllFail (fun _ => 0) (fun a => ⟨a, "boom"⟩) 2 rfl rfl rfl (by omega)
      (fun a h => rfl)⟩

/-- C7 counterexample: under the interleaving `raceSchedule` (both threads pass the
`label not in cls._registry` check before either stores), two distinct
CircuitBreaker instances are created for the same previously-unregistered label
(two allocations happened: nextId = 2) and the two callers receive different
instances (ids 0 and 1) — the unsynchronized check-then-insert is not atomic. -/
theorem c7_cx_race_two_instances :
    (runReg raceSchedule).shared.nextId = 2 ∧
    Option.map CircuitBreaker.id (runReg raceSchedule).ta.result = some 0 ∧
    Option.map CircuitBreaker.id (runReg raceSchedule).tb.result = some 1 :=
  ⟨rfl, rfl, rfl⟩

/-- C7 amended: creation of a registry entry is atomic only under serialized
execution — when one call completes before the other starts (in either order),
exactly one breaker instance is created and both callers receive it; but there is
an interleaved schedule of two concurrent first-accesses for the same unseen label
under which two instances are created and the callers receive distinct instances. -/
theorem c7_serialized_single_instance :
    ((runReg serialScheduleAB).shared.nextId = 1 ∧
      Option.map CircuitBreaker.id (runReg serialScheduleAB).ta.result = some 0 ∧
      Option.map CircuitBreaker.id (runReg serialScheduleAB).tb.result = some 0) ∧
    ((runReg serialScheduleBA).shared.nextId = 1 ∧
      Option.map CircuitBreaker.id (runReg serialScheduleBA).ta.result = some 0 ∧
      Option.map CircuitBreaker.id (runReg serialScheduleBA).tb.result = some 0) ∧
    ((runReg raceSchedule).shared.nextId = 2 ∧
      Option.map CircuitBreaker.id (runReg raceSchedule).ta.result ≠
        Option.map CircuitBreaker.id (runReg raceSchedule).tb.result) :=
  ⟨⟨rfl, rfl, rfl⟩, ⟨rfl, rfl, rfl⟩, rfl, by decide⟩

theorem postGo_zero (url lab : String) (bc : Nat → AttemptResult) (el : Nat → Nat)
    (attempt : Nat) : postGo url lab bc el 0 attempt = ([], Outcome.noResult) := rfl

theorem postGo_succ (url lab : String) (bc : Nat → AttemptResult) (el : Nat → Nat)
    (l attempt : Nat) :
    postGo url lab bc el (l + 1) attempt =
      (let a := attempt + 1
       let retryEvts : List Event := if 1 < a then [Event.retryMetric "POST"] else []
       match bc a with
       | AttemptResult.ok resp =>
           (retryEvts ++
             [Event.infoStatus ("Response status: " ++ toString resp.status_code) url lab
                 resp.status_code,
               Event.requestMetric "POST" resp.status_code (el a)],
             Outcome.returned resp)
       | AttemptResult.circuitOpen e =>
           (retryEvts ++
             [Event.errorBreakerOpen ("Circuit breaker open: " ++ e.msg) url lab e.msg,
               Event.requestMetric "POST" 500 0],
             Outcome.noResult)
       | AttemptResult.exn e =>
           let evts := retryEvts ++
             [Event.errorAttemptFailed ("Attempt " ++ toString a ++ " failed: " ++ e.msg)
                 url lab e.msg]
           if l = 0 then (evts, Outcome.raised e)
           else
             let r := postGo url lab bc el l a
             (evts ++ Event.sleepFor (defaultBackoffStrategy a) :: r.1, r.2)) := rfl

theorem postGo_toGet (url lab : String) (bc : Nat → AttemptResult) (el : Nat → Nat) :
    ∀ left attempt,
      (postGo url lab bc el left attempt).1.map toGetEvent =
        (getGo url lab bc el left attempt).1 ∧
      (postGo url lab bc el left attempt).2 = (getGo url lab bc el left attempt).2 := by
  intro left
  induction left with
  | zero =>
      intro attempt
      exact ⟨rfl, rfl⟩
  | succ l ih =>
      intro attempt
      obtain ⟨ih1, ih2⟩ := ih (attempt + 1)
      rw [getGo_succ, postGo_succ]
      cases hbc : bc (attempt + 1) with
      | ok resp =>
          by_cases hA : 1 < attempt + 1 <;> simp [hbc, hA, toGetEvent]
      | circuitOpen e =>
          by_cases hA : 1 < attempt + 1 <;> simp [hbc, hA, toGetEvent]
      | exn e =>
          by_cases hA : 1 < attempt + 1 <;> by_cases hl : l = 0 <;>
            simp [hbc, hA, hl, toGetEvent, ih1, ih2]

/-- C9 counterexample: retagging only the metric events of a `Fetcher.post` trace as
GET does not yield the `Fetcher.get` trace — the initial dispatch info log also
differs ("Posting to URL: ..." versus "Fetching URL: ..."), a third difference
beyond the transport call and the metric method tags. -/
theorem c9_cx_dispatch_log_differs :
    (Fetcher.post ⟨"svc", 1, junkBreaker⟩ "u" "d"
        (fun _ => AttemptResult.ok ⟨200, ""⟩) (fun _ => 0)).1.map metricsToGet ≠
      (Fetcher.get ⟨"svc", 1, junkBreaker⟩ "u"
        (fun _ => AttemptResult.ok ⟨200, ""⟩) (fun _ => 0)).1 := by
  decide

/-- C9 amended: for every Fetcher state and oracle behaviour, `Fetcher.post` and
`Fetcher.get` produce the same termination outcome and the same event trace once a
POST trace is retagged to GET — where the retagging covers the metric method tags
AND the dispatch log message text, the latter being an additional difference the
original claim did not list. -/
theorem c9_post_equiv_get (f : Fetcher) (url data : String)
    (bc : Nat → AttemptResult) (el : Nat → Nat) :
    (f.post url data bc el).1.map toGetEvent = (f.get url bc el).1 ∧
    (f.post url data bc el).2 = (f.get url bc el).2 := by
  obtain ⟨h1, h2⟩ := postGo_toGet url f.label bc el f.maxRetries.toNat 0
  constructor
  · simp [Fetcher.get, Fetcher.post, toGetEvent, h1]
  · simp [Fetcher.get, Fetcher.post, h2]
